import Mathlib

/-!
Verification development for the NewsAgent content-digest pipeline
(`src/lambda/hello-world.ts`).  JavaScript strings are modelled as `List Char`
(`JStr`); string length is the character count.  External effects (HTTP,
Bedrock, Polly, S3, DynamoDB, SES) are modelled as deterministic oracles
passed in an `Oracles` record; fallible calls return `Except Unit` or
`Option`.  Each definition is a direct translation of the correspondingly
named function in the source file.
-/

namespace NewsAgent

/-- JavaScript strings, modelled as character lists. -/
abbrev JStr := List Char

/-- Audio byte buffers (`Buffer` in the source), modelled as byte lists. -/
abbrev Buffer := List Nat

/-- Characters matched by the JavaScript regex class `\s` (the ASCII ones,
which are the only ones the pipeline's inputs contain). -/
def jsWhitespace (c : Char) : Bool :=
  c == ' ' || c == '\t' || c == '\n' || c == '\r' || c == '\x0b' || c == '\x0c'

/-- JavaScript `String.prototype.trim`: drop whitespace from both ends. -/
def jsTrim (s : JStr) : JStr :=
  ((s.dropWhile jsWhitespace).reverse.dropWhile jsWhitespace).reverse

/-- The sentence-boundary characters of the chunker's split regex `[.!?]+`. -/
def isSentenceBreak (c : Char) : Bool :=
  c == '.' || c == '!' || c == '?'

/-- Worker for `text.split(/[.!?]+/)`: emit the accumulated piece at each
maximal run of boundary characters.  The scanners in this file take a fuel
argument equal to the input length so that they are structurally recursive
(hence kernel-computable); every recursive call consumes at least one input
character, so the fuel never runs out on the wrapper's call. -/
def splitBreaksGo : Nat → JStr → JStr → List JStr
  | _, [], acc => [acc.reverse]
  | 0, s, acc => [acc.reverse ++ s]
  | fuel + 1, c :: cs, acc =>
    if isSentenceBreak c then
      acc.reverse :: splitBreaksGo fuel (cs.dropWhile isSentenceBreak) []
    else
      splitBreaksGo fuel cs (c :: acc)

/-- `text.split(/[.!?]+/)` from `splitTextIntoChunks`. -/
def splitOnSentenceBreaks (text : JStr) : List JStr :=
  splitBreaksGo text.length text []

/-- One iteration of the sentence loop in `splitTextIntoChunks`
(lines 649-664): state is `(chunks, currentChunk)`. -/
def chunkStep (maxChunkSize : Nat) (st : List JStr × JStr) (sentence : JStr) :
    List JStr × JStr :=
  let trimmedSentence := jsTrim sentence
  if trimmedSentence = [] then st
  else
    let sentenceWithPunctuation := trimmedSentence ++ ['.']
    if maxChunkSize < st.2.length + sentenceWithPunctuation.length + 1 then
      ((if jsTrim st.2 ≠ [] then st.1 ++ [jsTrim st.2] else st.1),
        sentenceWithPunctuation)
    else
      (st.1, st.2 ++ (if st.2 ≠ [] then [' '] else []) ++ sentenceWithPunctuation)

/-- `splitTextIntoChunks(text, maxChunkSize)` (lines 638-672). -/
def splitTextIntoChunks (text : JStr) (maxChunkSize : Nat) : List JStr :=
  if text.length ≤ maxChunkSize then [text]
  else
    let sentences :=
      (splitOnSentenceBreaks text).filter (fun s => decide (0 < (jsTrim s).length))
    let st := sentences.foldl (chunkStep maxChunkSize) ([], [])
    let chunks := if jsTrim st.2 ≠ [] then st.1 ++ [jsTrim st.2] else st.1
    if 0 < chunks.length then chunks else [text]

/-- The text actually submitted to Polly by `generateSingleAudioBuffer`
(line 677): inputs over 2800 characters are cut at 2800 and suffixed with
an ellipsis. -/
def truncatedText (text : JStr) : JStr :=
  if 2800 < text.length then text.take 2800 ++ "...".data else text

/-! Markdown cleaning before speech synthesis (lines 485-490 and 571-576):
strip heading markers, bold markers, italic markers, collapse newlines,
trim.  The regex scanners that need lookahead (`\*\*(.*?)\*\*` and
`\*(.*?)\*`) are written with a fuel argument equal to the input length;
every recursive call consumes at least one input character, so the fuel
never runs out on the wrapper's call. -/

/-- Worker for `replace(/^#+\s*/gm, '')`: at a line start, a run of `#`
followed by a greedy run of whitespace is deleted; the position after the
deleted run is a line start exactly when the last deleted character was a
newline. -/
def stripHeadersGo : Nat → Bool → JStr → JStr
  | _, _, [] => []
  | 0, _, s => s
  | fuel + 1, atLineStart, c :: cs =>
    if atLineStart && c == '#' then
      let afterHashes := cs.dropWhile (fun x => x == '#')
      let ws := afterHashes.takeWhile jsWhitespace
      let rest := afterHashes.dropWhile jsWhitespace
      stripHeadersGo fuel (ws.getLast? == some '\n') rest
    else
      c :: stripHeadersGo fuel (c == '\n') cs

/-- `replace(/^#+\s*/gm, '')`: the `m` flag makes `^` match at the string
start and after each newline. -/
def stripHeaders (s : JStr) : JStr := stripHeadersGo s.length true s

/-- Lazy search for the closing `**` of `\*\*(.*?)\*\*`: returns the
(`.`-only, hence newline-free) captured text and the remainder after the
closing marker. -/
def findBoldClose : JStr → Option (JStr × JStr)
  | [] => none
  | c :: cs =>
    if c == '\n' then none
    else if c == '*' && cs.head? == some '*' then some ([], cs.tail)
    else (findBoldClose cs).map (fun p => (c :: p.1, p.2))

/-- Worker for the bold-marker replace: each `\*\*(.*?)\*\*` match is replaced by its captured group. -/
def stripBoldGo : Nat → JStr → JStr
  | 0, s => s
  | _ + 1, [] => []
  | fuel + 1, c :: cs =>
    if c == '*' && cs.head? == some '*' then
      match findBoldClose cs.tail with
      | some (inner, after) => inner ++ stripBoldGo fuel after
      | none => c :: stripBoldGo fuel cs
    else c :: stripBoldGo fuel cs

/-- The bold-marker replace: each `\*\*(.*?)\*\*` match becomes its captured group. -/
def stripBold (s : JStr) : JStr := stripBoldGo s.length s

/-- Lazy search for the closing `*` of `\*(.*?)\*`. -/
def findItalicClose : JStr → Option (JStr × JStr)
  | [] => none
  | c :: cs =>
    if c == '\n' then none
    else if c == '*' then some ([], cs)
    else (findItalicClose cs).map (fun p => (c :: p.1, p.2))

/-- Worker for the italic-marker replace: each `\*(.*?)\*` match is replaced by its captured group. -/
def stripItalicGo : Nat → JStr → JStr
  | 0, s => s
  | _ + 1, [] => []
  | fuel + 1, c :: cs =>
    if c == '*' then
      match findItalicClose cs with
      | some (inner, after) => inner ++ stripItalicGo fuel after
      | none => c :: stripItalicGo fuel cs
    else c :: stripItalicGo fuel cs

/-- The italic-marker replace: each `\*(.*?)\*` match becomes its captured group. -/
def stripItalic (s : JStr) : JStr := stripItalicGo s.length s

/-- Worker for `replace(/\n+/g, ' ')`: each maximal newline run becomes one
space. -/
def collapseNewlinesGo : Nat → JStr → JStr
  | _, [] => []
  | 0, s => s
  | fuel + 1, c :: cs =>
    if c == '\n' then ' ' :: collapseNewlinesGo fuel (cs.dropWhile (fun x => x == '\n'))
    else c :: collapseNewlinesGo fuel cs

/-- `replace(/\n+/g, ' ')`. -/
def collapseNewlines (s : JStr) : JStr := collapseNewlinesGo s.length s

/-- The markdown-to-speech cleaning applied to a summary before synthesis
(identical in `generateAudio` and `generateCombinedAudio`). -/
def cleanForSpeech (summary : JStr) : JStr :=
  jsTrim (collapseNewlines (stripItalic (stripBold (stripHeaders summary))))

/-! Content extraction (`fetchArticleContent`, lines 402-423). -/

/-- ASCII case-insensitive character comparison (the `i` regex flag). -/
def lowerEq (c d : Char) : Bool := c.toLower == d.toLower

/-- Case-insensitive prefix test: `startsWithCI pat s`. -/
def startsWithCI : JStr → JStr → Bool
  | [], _ => true
  | _ :: _, [] => false
  | p :: ps, c :: cs => lowerEq p c && startsWithCI ps cs

/-- JavaScript `\w`: `[A-Za-z0-9_]`. -/
def isWordChar (c : Char) : Bool := c.isAlphanum || c == '_'

/-- Whether the first character (if any) is a word character; used for the
`\b` boundary after the tag name. -/
def headIsWordChar : JStr → Bool
  | [] => false
  | c :: _ => isWordChar c

/-- Find the first case-insensitive occurrence of `close` and return the
remainder after it. -/
def findCloseTag (close : JStr) : JStr → Option JStr
  | [] => none
  | c :: cs =>
    if startsWithCI close (c :: cs) then some ((c :: cs).drop close.length)
    else findCloseTag close cs

/-- Worker for the script/style block removers
`replace(/<tag\b[^<]*(?:(?!<\/tag>)<[^<]*)*<\/tag>/gi, '')`: the tempered
pattern deletes from each `<tag` (with a word boundary) through the nearest
following `</tag>`; an unclosed block is left alone.  Fuel equals the input
length; every recursive call consumes at least one character. -/
def removeTagBlocksGo (tagName close : JStr) : Nat → JStr → JStr
  | 0, s => s
  | _ + 1, [] => []
  | fuel + 1, c :: cs =>
    if c == '<' && startsWithCI tagName cs && !headIsWordChar (cs.drop tagName.length) then
      match findCloseTag close (cs.drop tagName.length) with
      | some after => removeTagBlocksGo tagName close fuel after
      | none => c :: removeTagBlocksGo tagName close fuel cs
    else c :: removeTagBlocksGo tagName close fuel cs

/-- `replace(/<script\b[^<]*(?:(?!<\/script>)<[^<]*)*<\/script>/gi, '')`. -/
def removeScriptBlocks (s : JStr) : JStr :=
  removeTagBlocksGo ("script".data) ("</script>".data) s.length s

/-- `replace(/<style\b[^<]*(?:(?!<\/style>)<[^<]*)*<\/style>/gi, '')`. -/
def removeStyleBlocks (s : JStr) : JStr :=
  removeTagBlocksGo ("style".data) ("</style>".data) s.length s

/-- Find the first `>` and return the remainder after it. -/
def findTagEnd : JStr → Option JStr
  | [] => none
  | c :: cs => if c == '>' then some cs else findTagEnd cs

/-- Worker for `replace(/<[^>]*>/g, ' ')`: each `<...>` group becomes one
space; a `<` with no later `>` stays. -/
def stripHtmlTagsGo : Nat → JStr → JStr
  | 0, s => s
  | _ + 1, [] => []
  | fuel + 1, c :: cs =>
    if c == '<' then
      match findTagEnd cs with
      | some after => ' ' :: stripHtmlTagsGo fuel after
      | none => c :: stripHtmlTagsGo fuel cs
    else c :: stripHtmlTagsGo fuel cs

/-- `replace(/<[^>]*>/g, ' ')`. -/
def stripHtmlTags (s : JStr) : JStr := stripHtmlTagsGo s.length s

/-- Worker for `replace(/\s+/g, ' ')`: each maximal whitespace run becomes
one space. -/
def collapseWhitespaceGo : Nat → JStr → JStr
  | _, [] => []
  | 0, s => s
  | fuel + 1, c :: cs =>
    if jsWhitespace c then ' ' :: collapseWhitespaceGo fuel (cs.dropWhile jsWhitespace)
    else c :: collapseWhitespaceGo fuel cs

/-- `replace(/\s+/g, ' ')`. -/
def collapseWhitespace (s : JStr) : JStr := collapseWhitespaceGo s.length s

/-- The pure text-extraction pipeline of `fetchArticleContent` applied to a
fetched page: strip scripts, then styles, then remaining tags, normalize
whitespace, trim, and cut at 4000 characters with an appended ellipsis. -/
def extractArticleText (content : JStr) : JStr :=
  let textContent :=
    jsTrim (collapseWhitespace (stripHtmlTags (removeStyleBlocks (removeScriptBlocks content))))
  if 4000 < textContent.length then textContent.take 4000 ++ "...".data else textContent

/-- `[a-z0-9]`, the characters kept by the audio filename slug. -/
def slugChar (c : Char) : Bool := ('a' ≤ c && c ≤ 'z') || ('0' ≤ c && c ≤ '9')

/-- Worker for `replace(/[^a-z0-9]+/g, '-')`. -/
def slugGo : Nat → JStr → JStr
  | _, [] => []
  | 0, s => s
  | fuel + 1, c :: cs =>
    if slugChar c then c :: slugGo fuel cs
    else '-' :: slugGo fuel (cs.dropWhile (fun x => !slugChar x))

/-- `title.toLowerCase().replace(/[^a-z0-9]+/g, '-').slice(0, 50)`
(line 511). -/
def titleSlug (title : JStr) : JStr :=
  (slugGo title.length (title.map Char.toLower)).take 50

/-! Data model (`interface` declarations, lines 10-77). -/

/-- The two content sources of the `source` union type. -/
inductive NewsSource
  | hackerNews
  | githubTrending
deriving DecidableEq

/-- The string tag stored for each source. -/
def sourceTag : NewsSource → JStr
  | .hackerNews => "hacker-news".data
  | .githubTrending => "github-trending".data

/-- A parsed Hacker News item as returned by the item endpoint.  The field
`byUser` models the JSON field `by` (a reserved word in Lean); `type` is
present on the wire and checked by the fetcher even though the TypeScript
interface omits it. -/
structure HackerNewsItem where
  id : Nat
  title : JStr
  url : Option JStr := none
  score : Nat
  byUser : JStr
  time : Nat
  descendants : Option Nat := none
  type : JStr
deriving DecidableEq

/-- A repository from the GitHub search response (`owner` flattened to the
one consumed field `owner.login`). -/
structure GitHubRepository where
  id : Nat
  name : JStr
  full_name : JStr
  description : JStr
  html_url : JStr
  stargazers_count : Nat
  language : JStr
  created_at : JStr
  updated_at : JStr
  owner_login : JStr
deriving DecidableEq

/-- `StoryInfo`: one normalized item flowing through the pipeline. -/
structure StoryInfo where
  title : JStr
  url : JStr
  score : Nat
  author : JStr
  comments : Nat
  timestamp : JStr
  source : NewsSource
  summary : Option JStr := none
  audioUrl : Option JStr := none
deriving DecidableEq

/-- One stored DynamoDB item.  DynamoDB is schemaless, so the record covers
the attributes of both story records and the digest record; absent
attributes are `none`.  `totalStories` is the spec's `totalItems`,
`timestamp` the spec's `generatedAt`. -/
structure DbItem where
  id : JStr
  date : Option JStr := none
  source : Option JStr := none
  title : Option JStr := none
  url : Option JStr := none
  score : Option Nat := none
  author : Option JStr := none
  comments : Option Nat := none
  timestamp : Option JStr := none
  summary : Option JStr := none
  audioUrl : Option JStr := none
  totalStories : Option Nat := none
  combinedAudioUrl : Option JStr := none
  emailSent : Option Bool := none
  lastUpdated : Option JStr := none
  ttl : Option Nat := none
deriving DecidableEq

/-- The recommendation store, keyed by the `id` attribute. -/
abbrev Store := JStr → Option DbItem

/-- DynamoDB `PutItem` semantics: the item stored under `item.id` is
replaced by exactly the supplied attributes. -/
def putItem (store : Store) (item : DbItem) : Store :=
  fun k => if k = item.id then some item else store k

/-- The deterministic oracles standing for the external collaborators and
the environment (HTTP endpoints, Bedrock, Polly, S3, DynamoDB, SES, the
wall clock and date formatting). -/
structure Oracles where
  /-- Result of `GET topstories.json`, parsed: the ranked id list. -/
  hnTopStories : Except Unit (List Nat)
  /-- Result of `GET item/<id>.json`, parsed; `ok none` models a JSON
  `null` item. -/
  hnItem : Nat → Except Unit (Option HackerNewsItem)
  /-- Parsed `items` of the GitHub search response. -/
  ghSearch : Except Unit (List GitHubRepository)
  /-- `httpGet` of an article URL: the raw page body. -/
  page : JStr → Except Unit JStr
  /-- Bedrock `InvokeModel`: prompt to returned text (`content[0].text`). -/
  bedrock : JStr → Except Unit JStr
  /-- Polly `SynthesizeSpeech` plus `streamToBuffer`: text to audio bytes;
  `none` models a failed call or a missing audio stream. -/
  synth : JStr → Option Buffer
  /-- Whether S3 `PutObject` succeeds. -/
  s3Ok : Bool
  /-- Whether DynamoDB writes succeed (condition failures are modelled
  separately, from the store contents). -/
  dynamoOk : Bool
  /-- Whether the SES `SendEmail` call succeeds. -/
  sesOk : Bool
  /-- `process.env.AUDIO_BUCKET_NAME`. -/
  bucketName : Option JStr
  /-- The AWS region string used in constructed URLs. -/
  region : JStr
  /-- `new Date(ms).toISOString()`: epoch milliseconds to ISO-8601. -/
  isoOfEpochMs : Nat → JStr
  /-- `Date.now()` in milliseconds. -/
  nowMs : Nat

/-- `new Date(iso).toISOString().split('T')[0]` for the ISO-8601 UTC
strings the pipeline passes (the run's `currentTime`): the date part before
the `T`. -/
def dateOfIso (ts : JStr) : JStr := ts.takeWhile (fun c => c ≠ 'T')

/-! Source Fetcher (lines 280-339). -/

/-- The qualification test of the fetch loop (line 294): a non-null item
of kind `story` with a truthy (present and nonempty) destination URL. -/
def isQualifyingStory (story : HackerNewsItem) : Bool :=
  story.type == "story".data &&
    (match story.url with
     | some u => !u.isEmpty
     | none => false)

/-- One iteration of the id-resolution loop: a failed or null or
non-qualifying resolution is skipped. -/
def hnFetchStep (o : Oracles) (stories : List HackerNewsItem) (storyId : Nat) :
    List HackerNewsItem :=
  match o.hnItem storyId with
  | .error _ => stories
  | .ok none => stories
  | .ok (some story) =>
    if isQualifyingStory story then stories ++ [story] else stories

/-- `getTopHackerNewsStories(limit)` (lines 280-307): take the FIRST
`limit` ranked ids (`slice(0, limit)`), resolve each, keep qualifying
items; a top-level list failure is logged and RETHROWN. -/
def getTopHackerNewsStories (o : Oracles) (limit : Nat) :
    Except Unit (List HackerNewsItem) :=
  match o.hnTopStories with
  | .error e => .error e
  | .ok ids => .ok ((ids.take limit).foldl (hnFetchStep o) [])

/-- `getTopGitHubTrending(limit)` (lines 309-339): a failure or an empty
response yields `[]`; otherwise the first `limit` items. -/
def getTopGitHubTrending (o : Oracles) (limit : Nat) : List GitHubRepository :=
  match o.ghSearch with
  | .error _ => []
  | .ok items => if 0 < items.length then items.take limit else []

/-! Content extraction, summarization, per-item audio (lines 342-537). -/

/-- The Content Extractor's failure sentinel. -/
def sentinelNoContent : JStr := "Unable to fetch article content".data

/-- The Summarizer's failure sentinel. -/
def sentinelNoSummary : JStr := "Summary unavailable".data

/-- Placeholder URL for items without one. -/
def noUrlAvailable : JStr := "No URL available".data

/-- `fetchArticleContent(url)` (lines 402-423): any error becomes the
sentinel; otherwise the extraction pipeline runs on the page body. -/
def fetchArticleContent (o : Oracles) (url : JStr) : JStr :=
  match o.page url with
  | .error _ => sentinelNoContent
  | .ok content => extractArticleText content

/-- The prompt built by `summarizeWithBedrock` (lines 433-443). -/
def bedrockPrompt (content : JStr) : JStr :=
  ("Human: Please analyze this article and provide exactly 2 parts:\n\n1. **Summary**: A concise overview of what the article is about and its main points\n2. **Key Insight**: The single most interesting, surprising, or valuable takeaway that makes this article worth reading\n\nKeep both parts brief and focused. Do not repeat the article title in your response.\n\nArticle content:\n".data)
    ++ content ++ "\n\nAssistant:".data

/-- `summarizeWithBedrock(title, content)` (lines 425-470): the returned
text trimmed, or the sentinel on any failure. -/
def summarizeWithBedrock (o : Oracles) (content : JStr) : JStr :=
  match o.bedrock (bedrockPrompt content) with
  | .ok text => jsTrim text
  | .error _ => sentinelNoSummary

/-- The S3 object URL constructed after a successful upload. -/
def audioFileUrl (bucket region filename : JStr) : JStr :=
  "https://".data ++ bucket ++ ".s3.".data ++ region ++ ".amazonaws.com/".data ++ filename

/-- `generateAudio(title, summary)` (lines 472-537): clean the summary,
synthesize (untruncated here), upload under
`audio/<date>/<slug>.mp3`, return the URL; any failure yields `undefined`. -/
def generateAudio (o : Oracles) (title summary : JStr) : Option JStr :=
  let speechText := cleanForSpeech summary
  match o.synth speechText with
  | none => none
  | some _ =>
    let timestamp := (o.isoOfEpochMs o.nowMs).take 10
    let filename := "audio/".data ++ timestamp ++ "/".data ++ titleSlug title ++ ".mp3".data
    match o.bucketName with
    | none => none
    | some bucket => if o.s3Ok then some (audioFileUrl bucket o.region filename) else none

/-- `processStoryWithSummary(story)` (lines 342-374).  The summarizer and
audio generator catch internally, so the outer catch is unreachable; on a
summarizer failure the summary field is ASSIGNED the sentinel. -/
def processStoryWithSummary (o : Oracles) (story : HackerNewsItem) : StoryInfo :=
  let basicInfo : StoryInfo :=
    { title := story.title
      url := story.url.getD noUrlAvailable
      score := story.score
      author := story.byUser
      comments := story.descendants.getD 0
      timestamp := o.isoOfEpochMs (story.time * 1000)
      source := .hackerNews }
  match story.url with
  | none => basicInfo
  | some u =>
    if u ≠ [] ∧ u ≠ noUrlAvailable then
      let articleContent := fetchArticleContent o u
      if articleContent ≠ [] ∧ articleContent ≠ sentinelNoContent then
        let summary := summarizeWithBedrock o articleContent
        let withSummary := { basicInfo with summary := some summary }
        if summary ≠ [] ∧ summary ≠ sentinelNoSummary then
          { withSummary with audioUrl := generateAudio o story.title summary }
        else withSummary
      else basicInfo
    else basicInfo

/-- The summary string built for a GitHub repository (line 389). -/
def githubRepoSummary (repo : GitHubRepository) : JStr :=
  "## Summary\n\n".data ++ repo.full_name ++ " is a trending GitHub repository".data
    ++ (if repo.language ≠ [] then (" written in ".data ++ repo.language) else [])
    ++ ". ".data
    ++ (if repo.description ≠ [] then repo.description else ("No description provided.".data))
    ++ "\n\n## Key Insight\n\nThis repository has gained ".data
    ++ (Nat.repr repo.stargazers_count).data
    ++ " stars, indicating strong developer interest and potential utility. The project represents current trends in the open-source development community.".data

/-- `processGitHubRepository(repo)` (lines 377-400). -/
def processGitHubRepository (o : Oracles) (repo : GitHubRepository) : StoryInfo :=
  let basicInfo : StoryInfo :=
    { title := repo.full_name
      url := repo.html_url
      score := repo.stargazers_count
      author := repo.owner_login
      comments := 0
      timestamp := repo.created_at
      source := .githubTrending }
  let repoSummary := githubRepoSummary repo
  let withSummary := { basicInfo with summary := some repoSummary }
  if repoSummary ≠ [] then
    { withSummary with audioUrl := generateAudio o repo.full_name repoSummary }
  else withSummary

/-! Audio Assembler: combined daily track (lines 539-698). -/

/-- `generateSingleAudioBuffer(pollyClient, text)` (lines 674-698): the
text is truncated to Polly's safe length and synthesized; any failure or
missing stream yields `null`. -/
def generateSingleAudioBuffer (o : Oracles) (text : JStr) : Option Buffer :=
  o.synth (truncatedText text)

/-- The intro line of the combined track (line 555). -/
def introText : JStr :=
  "Welcome to your Hacker News daily digest. Here are today\x27s top stories with AI-generated summaries.".data

/-- The per-story title line `Story <i+1>: <title>.` (line 566). -/
def storyTitleText (index : Nat) (title : JStr) : JStr :=
  "Story ".data ++ (Nat.repr (index + 1)).data ++ ": ".data ++ title ++ ".".data

/-- The transition line between stories (line 589). -/
def nextStoryText : JStr := "Next story.".data

/-- The outro line of the combined track (line 597). -/
def outroText : JStr :=
  "That concludes today\x27s Hacker News digest. Thank you for listening.".data

/-- An optional buffer as the list of pushed buffers
(`if (buf) audioBuffers.push(buf)`). -/
def optBuf : Option Buffer → List Buffer
  | some b => [b]
  | none => []

/-- The per-story body of the combined-audio loop (lines 560-593),
accumulating buffers in push order: title line, then each summary chunk,
then — while not at the last index — the transition line.  A falsy (absent
or empty) summary skips the story entirely. -/
def combinedStoryBuffers (o : Oracles) (total : Nat) : Nat → List StoryInfo → List Buffer
  | _, [] => []
  | index, story :: rest =>
    (match story.summary with
     | some summary =>
       if summary ≠ [] then
         optBuf (generateSingleAudioBuffer o (storyTitleText index story.title))
           ++ (splitTextIntoChunks (cleanForSpeech summary) 2500).filterMap
                (generateSingleAudioBuffer o)
           ++ (if index < total - 1 then optBuf (generateSingleAudioBuffer o nextStoryText)
               else [])
       else []
     | none => []) ++ combinedStoryBuffers o total (index + 1) rest

/-- The full `audioBuffers` array built by `generateCombinedAudio`:
intro, story bodies, outro, each present only when its synthesis call
succeeded. -/
def combinedAudioBuffers (o : Oracles) (stories : List StoryInfo) : List Buffer :=
  optBuf (generateSingleAudioBuffer o introText)
    ++ combinedStoryBuffers o stories.length 0 stories
    ++ optBuf (generateSingleAudioBuffer o outroText)

/-- `generateCombinedAudio(stories, timestamp)` (lines 539-636): if no
buffer was produced the track is abandoned; otherwise the buffers are
concatenated in order and uploaded, returning the bytes and the URL
(`undefined` on a missing bucket or a failed upload, both caught). -/
def generateCombinedAudio (o : Oracles) (stories : List StoryInfo) :
    Option (Buffer × JStr) :=
  let audioBuffers := combinedAudioBuffers o stories
  if audioBuffers.length = 0 then none
  else
    let combinedBuffer := audioBuffers.flatten
    let dateStamp := (o.isoOfEpochMs o.nowMs).take 10
    let filename := "audio/".data ++ dateStamp ++ "/daily-digest-".data
      ++ (Nat.repr o.nowMs).data ++ ".mp3".data
    match o.bucketName with
    | none => none
    | some bucket =>
      if o.s3Ok then some (combinedBuffer, audioFileUrl bucket o.region filename)
      else none

/-! Persistence and email (lines 718-879). -/

/-- The per-story record id `<source>-<index>-<Date.now()>` (line 743). -/
def storyRecordId (o : Oracles) (source : NewsSource) (index : Nat) : JStr :=
  sourceTag source ++ "-".data ++ (Nat.repr index).data ++ "-".data
    ++ (Nat.repr o.nowMs).data

/-- One story's `PutRequest` item (lines 740-757): absent summary/audio
fields are stored as empty strings (`|| ''`). -/
def storyRecord (o : Oracles) (date : JStr) (ttl : Nat) (index : Nat)
    (story : StoryInfo) : DbItem :=
  { id := storyRecordId o story.source index
    date := some date
    source := some (sourceTag story.source)
    title := some story.title
    url := some story.url
    score := some story.score
    author := some story.author
    comments := some story.comments
    timestamp := some story.timestamp
    summary := some (story.summary.getD [])
    audioUrl := some (story.audioUrl.getD [])
    ttl := some ttl }

/-- The digest key `digest-<date>` for a run timestamp. -/
def digestId (timestamp : JStr) : JStr := "digest-".data ++ dateOfIso timestamp

/-- The `DailyDigest` record written at the end of a run (lines 760-769):
`emailSent` starts `false`. -/
def digestRecord (timestamp : JStr) (totalStories : Nat)
    (combinedAudioUrl : Option JStr) (ttl : Nat) : DbItem :=
  { id := digestId timestamp
    date := some (dateOfIso timestamp)
    source := some ("daily-digest".data)
    totalStories := some totalStories
    timestamp := some timestamp
    combinedAudioUrl := some (combinedAudioUrl.getD [])
    emailSent := some false
    ttl := some ttl }

/-- `saveDailyRecommendations(stories, timestamp, combinedAudioUrl)`
(lines 718-799): write each story record (the batching into groups of at
most 25 does not change the resulting store and is omitted), then the
digest record; a write failure is rethrown to the caller. -/
def saveDailyRecommendations (o : Oracles) (stories : List StoryInfo)
    (timestamp : JStr) (combinedAudioUrl : Option JStr) (store : Store) :
    Except Unit Store :=
  if o.dynamoOk then
    let date := dateOfIso timestamp
    let oneYearFromNow := o.nowMs / 1000 + 365 * 24 * 60 * 60
    let afterStories := stories.enum.foldl
      (fun st p => putItem st (storyRecord o date oneYearFromNow p.1 p.2)) store
    .ok (putItem afterStories
      (digestRecord timestamp stories.length combinedAudioUrl oneYearFromNow))
  else .error ()

/-- The item supplied to the conditional put of `updateEmailSentStatus`
(lines 818-822): ONLY `id`, `emailSent` and `lastUpdated`. -/
def emailSentUpdateItem (timestamp : JStr) : DbItem :=
  { id := digestId timestamp
    emailSent := some true
    lastUpdated := some timestamp }

/-- `updateEmailSentStatus(timestamp)` (lines 801-835): a `PutCommand`
whose item is `emailSentUpdateItem`, conditioned on the record existing;
DynamoDB `PutItem` REPLACES the stored item with exactly those attributes.
All errors (including a failed condition) are caught and swallowed, leaving
the store unchanged. -/
def updateEmailSentStatus (o : Oracles) (timestamp : JStr) (store : Store) : Store :=
  if o.dynamoOk then
    match store (digestId timestamp) with
    | none => store
    | some _ => putItem store (emailSentUpdateItem timestamp)
  else store

/-- `sendEmailSummary(newsletterData, timestamp)` (lines 837-879): a failed
SES send propagates to the caller; after a successful send the digest
update runs with its errors swallowed.  The rendered HTML/text bodies do
not affect any state and are not modelled. -/
def sendEmailSummary (o : Oracles) (timestamp : JStr) (store : Store) :
    Except Unit Store :=
  if o.sesOk then .ok (updateEmailSentStatus o timestamp store)
  else .error ()

/-! Pipeline Orchestrator (`handler`, lines 79-234). -/

/-- The truthiness filter for the combined track (line 148): a truthy
summary different from the failure sentinel. -/
def hasUsableSummary (story : StoryInfo) : Bool :=
  match story.summary with
  | some t => !t.isEmpty && t != sentinelNoSummary
  | none => false

/-- The store states around persistence and email, plus the run's
`emailSent` flag (handler lines 162-178). -/
structure PersistEmailTrace where
  storeAfterSave : Store
  finalStore : Store
  emailSent : Bool

/-- Handler lines 162-178: save (failure logged and swallowed), then send
the email (failure logged and swallowed, leaving the flag false). -/
def runPersistAndEmail (o : Oracles) (stories : List StoryInfo) (timestamp : JStr)
    (combinedAudioUrl : Option JStr) (store : Store) : PersistEmailTrace :=
  let storeAfterSave :=
    match saveDailyRecommendations o stories timestamp combinedAudioUrl store with
    | .ok s => s
    | .error _ => store
  match sendEmailSummary o timestamp storeAfterSave with
  | .ok s => { storeAfterSave := storeAfterSave, finalStore := s, emailSent := true }
  | .error _ =>
    { storeAfterSave := storeAfterSave, finalStore := storeAfterSave, emailSent := false }

/-- The success payload of a completed run (lines 180-191). -/
structure HandlerData where
  storiesProcessed : Nat
  stories : List StoryInfo
  emailSent : Bool
  combinedAudioUrl : Option JStr
deriving DecidableEq

/-- A run's outcome: a completed result, or the structured error result
produced by the top-level catch (lines 211-233). -/
inductive HandlerResult
  | success (data : HandlerData)
  | failure

/-- `handler` (lines 79-234).  A Hacker News top-level fetch failure is the
only uncaught error on this path and falls through to the top-level catch;
per-story processing, audio, persistence and email all swallow their own
failures. -/
def handler (o : Oracles) (currentTime : JStr) (store : Store) :
    HandlerResult × Store :=
  match getTopHackerNewsStories o 5 with
  | .error _ => (.failure, store)
  | .ok topStories =>
    let trendingRepos := getTopGitHubTrending o 5
    let stories := topStories.map (processStoryWithSummary o)
      ++ trendingRepos.map (processGitHubRepository o)
    let storiesWithSummaries := stories.filter hasUsableSummary
    let combinedAudioUrl :=
      if 0 < storiesWithSummaries.length then
        (generateCombinedAudio o storiesWithSummaries).map Prod.snd
      else none
    let trace := runPersistAndEmail o stories currentTime combinedAudioUrl store
    (.success
      { storiesProcessed := stories.length
        stories := stories
        emailSent := trace.emailSent
        combinedAudioUrl := combinedAudioUrl },
      trace.finalStore)

/-! The narration order mandated by the specification, for the
combined-track refinement claim.  Unlike the definitions above, which are
translated from the source, this one transcribes the spec's words: intro,
then for each item its title line followed by its summary chunks in chunk
order, a transition line after every item except the last, finally the
outro. -/

/-- Spec order, one item: title line, the item's cleaned-summary chunks in
chunk order, then — except after the last item — the transition line. -/
def narrationPlanItem (total index : Nat) (story : StoryInfo) : List JStr :=
  storyTitleText index story.title
    :: splitTextIntoChunks (cleanForSpeech (story.summary.getD [])) 2500
    ++ (if index + 1 < total then [nextStoryText] else [])

/-- Spec order, all items in list order. -/
def narrationPlanItems (total : Nat) : Nat → List StoryInfo → List JStr
  | _, [] => []
  | index, story :: rest =>
    narrationPlanItem total index story ++ narrationPlanItems total (index + 1) rest

/-- Spec order for the whole combined track: intro, items, outro. -/
def narrationPlan (stories : List StoryInfo) : List JStr :=
  introText :: (narrationPlanItems stories.length 0 stories ++ [outroText])

/-! Concrete fixtures used by the witness and counterexample theorems. -/

/-- An empty recommendation store. -/
def emptyStore : Store := fun _ => none

/-- A qualifying Hacker News item. -/
def hnStoryItem (i : Nat) : HackerNewsItem :=
  { id := i
    title := "A test story".data
    url := some ("https://example.com/a".data)
    score := 10
    byUser := "alice".data
    time := 1700000000
    descendants := some 4
    type := "story".data }

/-- A non-qualifying item: its kind is `job`, not `story`. -/
def hnJobItem : HackerNewsItem :=
  { id := 1
    title := "A hiring post".data
    url := some ("https://example.com/j".data)
    score := 3
    byUser := "bob".data
    time := 1700000001
    descendants := none
    type := "job".data }

/-- A baseline oracle configuration on which every external call succeeds
with small fixed data. -/
def oracleBase : Oracles :=
  { hnTopStories := .ok [1, 2]
    hnItem := fun i => .ok (some (hnStoryItem i))
    ghSearch := .ok []
    page := fun _ => .ok ("<p>Hello world. Nice day.</p>".data)
    bedrock := fun _ => .ok ("A fine overview. A keen insight.".data)
    synth := fun t => some (t.map Char.toNat)
    s3Ok := true
    dynamoOk := true
    sesOk := true
    bucketName := some ("bucket".data)
    region := "us-west-2".data
    isoOfEpochMs := fun _ => "2024-01-01T00:00:00.000Z".data
    nowMs := 1704067200000 }

/-- The run timestamp used by the concrete scenarios. -/
def ts0 : JStr := "2024-01-01T00:00:00.000Z".data

/-- Baseline with a failing Hacker News top-stories request. -/
def oracleHnFail : Oracles := { oracleBase with hnTopStories := .error () }

/-- Baseline with a failing GitHub search request. -/
def oracleGhFail : Oracles := { oracleBase with ghSearch := .error () }

/-- Baseline with a failing summarizer. -/
def oracleBedrockFail : Oracles := { oracleBase with bedrock := fun _ => .error () }

/-- Baseline whose page fetch returns a 4001-character body. -/
def oracleLongPage : Oracles :=
  { oracleBase with page := fun _ => .ok (List.replicate 4001 'a') }

/-- Item resolution where id 1 is a job and id 2 a qualifying story. -/
def hnItemMixed : Nat → Except Unit (Option HackerNewsItem)
  | 1 => .ok (some hnJobItem)
  | 2 => .ok (some (hnStoryItem 2))
  | _ => .error ()

/-- Baseline where the ranked list is `[1, 2]` but only id 2 qualifies. -/
def oracleMixed : Oracles := { oracleBase with hnItem := hnItemMixed }

/-- Two items with usable summaries, for the combined-track scenario. -/
def storyA : StoryInfo :=
  { title := "Alpha".data
    url := "https://example.com/a".data
    score := 10
    author := "alice".data
    comments := 4
    timestamp := ts0
    source := .hackerNews
    summary := some ("First summary. It is short.".data) }

/-- Second item with a usable summary. -/
def storyB : StoryInfo :=
  { title := "Beta".data
    url := "https://example.com/b".data
    score := 7
    author := "bob".data
    comments := 2
    timestamp := ts0
    source := .githubTrending
    summary := some ("Second summary.".data) }

/-- A fully populated digest record as a run writes it. -/
def digestFull : DbItem :=
  digestRecord ts0 3
    (some ("https://bucket.s3.us-west-2.amazonaws.com/audio/2024-01-01/daily-digest-1704067200000.mp3".data))
    1735689600

/-- A store holding `digestFull`, as it stands after a successful save. -/
def storeWithDigest : Store := putItem emptyStore digestFull

/-- An id whose resolution succeeds with a qualifying story (kind `story`,
truthy URL). -/
def hnResolvesQualifying (o : Oracles) (storyId : Nat) : Prop :=
  ∃ st, o.hnItem storyId = .ok (some st) ∧ isQualifyingStory st = true

/-! Shared helper lemmas. -/

theorem dropWhile_replicate_neg {p : Char → Bool} {c : Char} (h : p c = false) (n : Nat) :
    List.dropWhile p (List.replicate n c) = List.replicate n c := by
  cases n with
  | zero => rfl
  | succ n => simp [List.replicate_succ, List.dropWhile_cons, h]

theorem dropWhile_replicate_pos {p : Char → Bool} {c : Char} (h : p c = true) (n : Nat) :
    List.dropWhile p (List.replicate n c) = [] := by
  induction n with
  | zero => rfl
  | succ n ih => simp [List.replicate_succ, List.dropWhile_cons, h, ih]

theorem jsTrim_replicate {c : Char} (h : jsWhitespace c = false) (n : Nat) :
    jsTrim (List.replicate n c) = List.replicate n c := by
  unfold jsTrim
  rw [dropWhile_replicate_neg h, List.reverse_replicate, dropWhile_replicate_neg h,
    List.reverse_replicate]

theorem jsTrim_length_le (s : JStr) : (jsTrim s).length ≤ s.length := by
  unfold jsTrim
  rw [List.length_reverse]
  refine le_trans (List.dropWhile_suffix _).sublist.length_le ?_
  rw [List.length_reverse]
  exact (List.dropWhile_suffix _).sublist.length_le

theorem mem_dropWhile_of_neg {p : Char → Bool} {c : Char} (hc : p c = false) :
    ∀ {l : JStr}, c ∈ l → c ∈ l.dropWhile p := by
  intro l
  induction l with
  | nil => intro h; cases h
  | cons a l ih =>
    intro h
    rw [List.dropWhile_cons]
    split
    · next hpa =>
      rcases List.mem_cons.mp h with heq | hm
      · subst heq; rw [hc] at hpa; cases hpa
      · exact ih hm
    · exact h

theorem jsTrim_ne_nil_of_mem {s : JStr} {c : Char} (hc : jsWhitespace c = false)
    (h : c ∈ s) : jsTrim s ≠ [] := by
  unfold jsTrim
  intro heq
  have h4 : c ∈ ((s.dropWhile jsWhitespace).reverse.dropWhile jsWhitespace).reverse :=
    List.mem_reverse.mpr
      (mem_dropWhile_of_neg hc (List.mem_reverse.mpr (mem_dropWhile_of_neg hc h)))
  rw [heq] at h4
  cases h4

theorem filterMap_singleton_buf (f : JStr → Option Buffer) (x : JStr) :
    [x].filterMap f = optBuf (f x) := by
  cases h : f x <;> simp [optBuf, h]

theorem filterMap_cons_buf (f : JStr → Option Buffer) (x : JStr) (l : List JStr) :
    (x :: l).filterMap f = optBuf (f x) ++ l.filterMap f := by
  cases h : f x <;> simp [optBuf, h, List.filterMap_cons]

/-! Claim C10: every text submitted to the synthesizer by
`generateSingleAudioBuffer` is at most 2803 characters long. -/

theorem truncatedText_length_le (text : JStr) : (truncatedText text).length ≤ 2803 := by
  unfold truncatedText
  split
  · simp only [List.length_append, List.length_take, List.length_cons, List.length_nil]
    omega
  · omega

/-- C10: the text actually submitted to Polly by
`generateSingleAudioBuffer` is `truncatedText text`, whose length is at
most 2803 (inputs over 2800 characters are cut at 2800 and suffixed with
a 3-character ellipsis), hence below the synthesizer's 3000-character
ceiling. -/
theorem polly_input_bounded (o : Oracles) (text : JStr) :
    generateSingleAudioBuffer o text = o.synth (truncatedText text)
      ∧ (truncatedText text).length ≤ 2803
      ∧ (truncatedText text).length ≤ 3000 :=
  ⟨rfl, truncatedText_length_le text, le_trans (truncatedText_length_le text) (by omega)⟩

/-! Claim C8: the Content Extractor's output length. -/

theorem extractArticleText_length_le (content : JStr) :
    (extractArticleText content).length ≤ 4003 := by
  unfold extractArticleText
  dsimp only
  split
  · simp only [List.length_append, List.length_take, List.length_cons, List.length_nil]
    omega
  · omega

/-- C8 (amended): the Content Extractor's returned text — the sentinel on a
failed fetch, otherwise the page body with script and style blocks
stripped before the remaining tags, whitespace collapsed, and the result
cut at 4000 characters with an appended 3-character ellipsis — has length
at most 4003, not 4000. -/
theorem fetchArticleContent_length_le (o : Oracles) (url : JStr) :
    (fetchArticleContent o url).length ≤ 4003 := by
  unfold fetchArticleContent
  split
  · decide
  · exact extractArticleText_length_le _

theorem removeTagBlocksGo_replicate_a (tagName close : JStr) (n : Nat) :
    ∀ fuel, removeTagBlocksGo tagName close fuel (List.replicate n 'a')
      = List.replicate n 'a' := by
  induction n with
  | zero => intro fuel; cases fuel <;> rfl
  | succ n ih =>
    intro fuel
    cases fuel with
    | zero => rfl
    | succ f =>
      have hc : ('a' == '<') = false := by decide
      simp [removeTagBlocksGo, List.replicate_succ, hc, ih]

theorem stripHtmlTagsGo_replicate_a (n : Nat) :
    ∀ fuel, stripHtmlTagsGo fuel (List.replicate n 'a') = List.replicate n 'a' := by
  induction n with
  | zero => intro fuel; cases fuel <;> rfl
  | succ n ih =>
    intro fuel
    cases fuel with
    | zero => rfl
    | succ f =>
      have hc : ('a' == '<') = false := by decide
      simp [stripHtmlTagsGo, List.replicate_succ, hc, ih]

theorem collapseWhitespaceGo_replicate_a (n : Nat) :
    ∀ fuel, collapseWhitespaceGo fuel (List.replicate n 'a') = List.replicate n 'a' := by
  induction n with
  | zero => intro fuel; cases fuel <;> rfl
  | succ n ih =>
    intro fuel
    cases fuel with
    | zero => rfl
    | succ f =>
      have hc : jsWhitespace 'a' = false := by decide
      simp [collapseWhitespaceGo, List.replicate_succ, hc, ih]

theorem extractArticleText_replicate_a :
    extractArticleText (List.replicate 4001 'a')
      = List.replicate 4000 'a' ++ "...".data := by
  unfold extractArticleText removeScriptBlocks removeStyleBlocks stripHtmlTags
    collapseWhitespace
  dsimp only
  rw [removeTagBlocksGo_replicate_a, removeTagBlocksGo_replicate_a,
    stripHtmlTagsGo_replicate_a, collapseWhitespaceGo_replicate_a,
    jsTrim_replicate (by decide)]
  rw [List.length_replicate, if_pos (by omega), List.take_replicate]
  norm_num

/-- C8 (counterexample): a page whose extracted text is 4001 characters of
`a` yields a returned text of length 4003 — over the claimed 4000-character
budget. -/
theorem fetchArticleContent_over_budget :
    fetchArticleContent oracleLongPage ("https://example.com/a".data)
      = List.replicate 4000 'a' ++ "...".data
    ∧ 4000 < (fetchArticleContent oracleLongPage ("https://example.com/a".data)).length := by
  have h : fetchArticleContent oracleLongPage ("https://example.com/a".data)
      = extractArticleText (List.replicate 4001 'a') := rfl
  rw [h, extractArticleText_replicate_a]
  refine ⟨rfl, ?_⟩
  rw [List.length_append, List.length_replicate]
  have h3 : ("...".data).length = 3 := rfl
  omega

/-! Claims C1 and C9: the chunker. -/

theorem dropWhile_cons_neg {p : Char → Bool} {c : Char} (h : p c = false) (l : JStr) :
    (c :: l).dropWhile p = c :: l := by
  simp [List.dropWhile_cons, h]

theorem jsTrim_nil : jsTrim [] = [] := rfl

theorem jsTrim_cons_snoc {c d : Char} (hc : jsWhitespace c = false)
    (hd : jsWhitespace d = false) (l : JStr) :
    jsTrim (c :: (l ++ [d])) = c :: (l ++ [d]) := by
  unfold jsTrim
  rw [dropWhile_cons_neg hc]
  have h1 : (c :: (l ++ [d])).reverse = d :: (l.reverse ++ [c]) := by simp
  rw [h1, dropWhile_cons_neg hd]
  have h2 : (d :: (l.reverse ++ [c])).reverse = c :: (l ++ [d]) := by simp
  rw [h2]

theorem splitBreaksGo_no_break {c : Char} (h : isSentenceBreak c = false) :
    ∀ (n fuel : Nat) (acc : JStr),
      splitBreaksGo fuel (List.replicate n c) acc
        = [acc.reverse ++ List.replicate n c] := by
  intro n
  induction n with
  | zero => intro fuel acc; cases fuel <;> simp [splitBreaksGo]
  | succ n ih =>
    intro fuel acc
    cases fuel with
    | zero => rfl
    | succ f =>
      rw [List.replicate_succ]
      simp only [splitBreaksGo, h]
      rw [if_neg (by simp)]
      rw [ih]
      simp [List.append_assoc]

theorem splitBreaksGo_all_break {c : Char} (h : isSentenceBreak c = true)
    (f n : Nat) (acc : JStr) :
    splitBreaksGo (f + 1) (List.replicate (n + 1) c) acc = [acc.reverse, []] := by
  rw [List.replicate_succ]
  simp only [splitBreaksGo, h, if_true]
  rw [dropWhile_replicate_pos h]
  cases f <;> simp [splitBreaksGo]

theorem splitTextIntoChunks_all_trim_nil (text : JStr) (m : Nat)
    (h : ∀ s ∈ splitOnSentenceBreaks text, jsTrim s = []) :
    splitTextIntoChunks text m = [text] := by
  unfold splitTextIntoChunks
  split
  · rfl
  · dsimp only
    have hfil : (splitOnSentenceBreaks text).filter
        (fun s => decide (0 < (jsTrim s).length)) = [] := by
      rw [List.filter_eq_nil_iff]
      intro a ha
      rw [h a ha]
      simp
    rw [hfil]
    simp [List.foldl_nil, jsTrim_nil]

/-- C9 (amended): when the sentence pass yields zero chunks — every split
piece trims to nothing — the chunker returns exactly one chunk that is the
ORIGINAL text unmodified, not truncated to the ceiling. -/
theorem chunker_degenerate_fallback (text : JStr) (m : Nat)
    (h : ∀ s ∈ splitOnSentenceBreaks text, jsTrim s = []) :
    splitTextIntoChunks text m = [text] :=
  splitTextIntoChunks_all_trim_nil text m h

/-- C9 (witness): a degenerate three-character input over a ceiling of 1
comes back as one untruncated chunk. -/
theorem chunker_degenerate_fallback_witness :
    (∀ s ∈ splitOnSentenceBreaks (".?!".data), jsTrim s = [])
      ∧ splitTextIntoChunks (".?!".data) 1 = [".?!".data] :=
  ⟨by decide, chunker_degenerate_fallback (".?!".data) 1 (by decide)⟩

/-- C9 (counterexample): 2501 question marks with ceiling 2500 yield zero
sentence chunks, and the fallback chunk is the 2501-character original —
longer than the ceiling, so it was not truncated to fit. -/
theorem chunker_fallback_not_truncated :
    splitTextIntoChunks (List.replicate 2501 '?') 2500 = [List.replicate 2501 '?']
      ∧ 2500 < (List.replicate 2501 '?').length := by
  constructor
  · apply splitTextIntoChunks_all_trim_nil
    intro s hs
    unfold splitOnSentenceBreaks at hs
    rw [List.length_replicate] at hs
    have h2501 : (2501 : Nat) = 2500 + 1 := by norm_num
    rw [h2501, splitBreaksGo_all_break (by decide) 2500 2500] at hs
    simp at hs
    subst hs
    rfl
  · rw [List.length_replicate]
    omega

theorem chunkStep_single (m : Nat) (text : JStr) (hm : m < text.length + 2)
    (htrim : jsTrim text = text) (hne : text ≠ []) :
    chunkStep m ([], []) text = ([], text ++ ['.']) := by
  unfold chunkStep
  dsimp only
  rw [if_neg (by rw [htrim]; exact hne)]
  rw [if_pos (by
    rw [htrim]
    simp only [List.length_nil, List.length_append, List.length_cons]
    omega)]
  rw [jsTrim_nil, htrim]
  simp

theorem splitTextIntoChunks_single_sentence (text : JStr) (m : Nat)
    (hm : m < text.length)
    (hsplit : splitOnSentenceBreaks text = [text])
    (htrim : jsTrim text = text)
    (hne : text ≠ [])
    (htrim2 : jsTrim (text ++ ['.']) = text ++ ['.']) :
    splitTextIntoChunks text m = [text ++ ['.']] := by
  have hpa : 0 < (jsTrim text).length := by
    rw [htrim]
    exact List.length_pos.mpr hne
  have hfil : List.filter (fun s => decide (0 < (jsTrim s).length)) [text] = [text] := by
    simp only [List.filter_cons, List.filter_nil, decide_eq_true_iff]
    rw [if_pos hpa]
  unfold splitTextIntoChunks
  rw [if_neg (by omega)]
  dsimp only
  rw [hsplit, hfil]
  rw [List.foldl_cons, List.foldl_nil, chunkStep_single m text (by omega) htrim hne]
  dsimp only
  rw [htrim2]
  rw [if_pos (by simp)]
  rw [if_pos (by simp)]
  simp

/-- C1 (counterexample): 2501 letters with no sentence boundary and ceiling
2500 form one sentence; the chunker emits it whole (plus the restored
period) as a single 2502-character chunk — longer than the ceiling. -/
theorem chunker_oversized_chunk :
    splitTextIntoChunks (List.replicate 2501 'a') 2500
        = [List.replicate 2501 'a' ++ ['.']]
      ∧ ∃ chunk ∈ splitTextIntoChunks (List.replicate 2501 'a') 2500,
          2500 < chunk.length := by
  have h2501 : (2501 : Nat) = 2500 + 1 := by norm_num
  have hsp : splitOnSentenceBreaks (List.replicate 2501 'a')
      = [List.replicate 2501 'a'] := by
    unfold splitOnSentenceBreaks
    rw [splitBreaksGo_no_break (by decide)]
    simp only [List.reverse_nil, List.nil_append]
  have htr2 : jsTrim (List.replicate 2501 'a' ++ ['.'])
      = List.replicate 2501 'a' ++ ['.'] := by
    rw [h2501, List.replicate_succ, List.cons_append]
    exact jsTrim_cons_snoc (by decide) (by decide) _
  have hnil : List.replicate 2501 'a' ≠ [] := by
    rw [h2501, List.replicate_succ]
    exact List.cons_ne_nil _ _
  have hmain := splitTextIntoChunks_single_sentence (List.replicate 2501 'a') 2500
    (by rw [List.length_replicate]; omega) hsp (jsTrim_replicate (by decide) 2501)
    hnil htr2
  refine ⟨hmain, List.replicate 2501 'a' ++ ['.'],
    by rw [hmain]; exact List.mem_singleton_self _, ?_⟩
  rw [List.length_append, List.length_replicate]
  have h1 : (['.'] : JStr).length = 1 := rfl
  omega

theorem chunkStep_bounded (m : Nat) (st : List JStr × JStr) (sentence : JStr)
    (hsent : (jsTrim sentence).length + 1 ≤ m)
    (h1 : ∀ ch ∈ st.1, ch.length ≤ m) (h2 : st.2.length ≤ m) :
    (∀ ch ∈ (chunkStep m st sentence).1, ch.length ≤ m)
      ∧ (chunkStep m st sentence).2.length ≤ m := by
  unfold chunkStep
  dsimp only
  split
  · exact ⟨h1, h2⟩
  · split
    · constructor
      · intro ch hch
        by_cases hst : jsTrim st.2 ≠ []
        · rw [if_pos hst] at hch
          rcases List.mem_append.mp hch with hin | hin
          · exact h1 ch hin
          · rw [List.mem_singleton.mp hin]
            exact le_trans (jsTrim_length_le st.2) h2
        · rw [if_neg hst] at hch
          exact h1 ch hch
      · rw [List.length_append]
        have hd : (['.'] : JStr).length = 1 := rfl
        omega
    · next hle =>
      refine ⟨h1, ?_⟩
      dsimp only
      have hsw : (jsTrim sentence ++ ['.']).length = (jsTrim sentence).length + 1 := by
        simp [List.length_append]
      have hite : (if st.2 ≠ [] then [' '] else ([] : JStr)).length ≤ 1 := by
        split <;> simp
      rw [List.length_append, List.length_append, hsw]
      rw [hsw] at hle
      omega

theorem foldl_chunkStep_bounded (m : Nat) :
    ∀ (l : List JStr), (∀ s ∈ l, (jsTrim s).length + 1 ≤ m) →
      ∀ st, (∀ ch ∈ st.1, ch.length ≤ m) → st.2.length ≤ m →
        (∀ ch ∈ (l.foldl (chunkStep m) st).1, ch.length ≤ m)
          ∧ (l.foldl (chunkStep m) st).2.length ≤ m := by
  intro l
  induction l with
  | nil => intro _ st h1 h2; exact ⟨h1, h2⟩
  | cons s rest ih =>
    intro hl st h1 h2
    rw [List.foldl_cons]
    obtain ⟨g1, g2⟩ := chunkStep_bounded m st s (hl s (List.mem_cons_self s rest)) h1 h2
    exact ih (fun x hx => hl x (List.mem_cons_of_mem _ hx)) _ g1 g2

theorem chunkStep_dot_mem (m : Nat) (st : List JStr × JStr) (sentence : JStr)
    (h : jsTrim sentence ≠ []) :
    '.' ∈ (chunkStep m st sentence).2 := by
  unfold chunkStep
  dsimp only
  rw [if_neg h]
  split
  · simp
  · simp

theorem foldl_chunkStep_dot (m : Nat) (init : List JStr × JStr) (l : List JStr)
    (hne : l ≠ []) (hall : ∀ s ∈ l, jsTrim s ≠ []) :
    '.' ∈ (l.foldl (chunkStep m) init).2 := by
  rcases List.eq_nil_or_concat l with rfl | ⟨L, b, rfl⟩
  · exact absurd rfl hne
  · rw [List.concat_eq_append, List.foldl_append, List.foldl_cons, List.foldl_nil]
    exact chunkStep_dot_mem m _ b (hall b (by simp [List.concat_eq_append]))

/-- C1 (amended): for text over the ceiling, every chunk the chunker
returns is within the ceiling PROVIDED every sentence of the text (trimmed,
with its restored period) fits within the ceiling and at least one sentence
survives trimming; a single over-long sentence (see the counterexample)
escapes the bound and is only cut later, at synthesis time. -/
theorem chunker_chunks_bounded (text : JStr) (m : Nat)
    (hs : ∀ s ∈ splitOnSentenceBreaks text, (jsTrim s).length + 1 ≤ m)
    (hne : ∃ s ∈ splitOnSentenceBreaks text, jsTrim s ≠ []) :
    ∀ chunk ∈ splitTextIntoChunks text m, chunk.length ≤ m := by
  unfold splitTextIntoChunks
  split
  · next hlen =>
    intro chunk hch
    simp at hch
    subst hch
    exact hlen
  · dsimp only
    intro chunk hch
    have hl : ∀ s ∈ (splitOnSentenceBreaks text).filter
        (fun s => decide (0 < (jsTrim s).length)), (jsTrim s).length + 1 ≤ m :=
      fun s hx => hs s (List.mem_of_mem_filter hx)
    have hball : ∀ s ∈ (splitOnSentenceBreaks text).filter
        (fun s => decide (0 < (jsTrim s).length)), jsTrim s ≠ [] := by
      intro s hx hnil
      have hp := List.of_mem_filter hx
      rw [hnil] at hp
      simp at hp
    have hsne : (splitOnSentenceBreaks text).filter
        (fun s => decide (0 < (jsTrim s).length)) ≠ [] := by
      obtain ⟨s, hmem, hstr⟩ := hne
      refine List.ne_nil_of_mem (a := s) (List.mem_filter.mpr ⟨hmem, ?_⟩)
      simp only [decide_eq_true_iff]
      exact List.length_pos.mpr hstr
    obtain ⟨g1, g2⟩ := foldl_chunkStep_bounded m _ hl ([], [])
      (by intro ch hch2; simp at hch2) (by simp)
    have hdot := foldl_chunkStep_dot m ([], []) _ hsne hball
    have htr_ne := jsTrim_ne_nil_of_mem (by decide) hdot
    rw [if_pos htr_ne] at hch
    rw [if_pos (by simp)] at hch
    rcases List.mem_append.mp hch with hin | hin
    · exact g1 chunk hin
    · rw [List.mem_singleton.mp hin]
      exact le_trans (jsTrim_length_le _) g2

/-- C1 (witness): a 14-character text over a ceiling of 10 whose sentences
all fit is split into chunks that all respect the ceiling. -/
theorem chunker_chunks_bounded_witness :
    (∀ s ∈ splitOnSentenceBreaks ("abc. def. ghi.".data), (jsTrim s).length + 1 ≤ 10)
      ∧ (∃ s ∈ splitOnSentenceBreaks ("abc. def. ghi.".data), jsTrim s ≠ [])
      ∧ ∀ chunk ∈ splitTextIntoChunks ("abc. def. ghi.".data) 10, chunk.length ≤ 10 :=
  ⟨by decide, by decide, chunker_chunks_bounded _ 10 (by decide) (by decide)⟩

/-! Claim C2: combined-track assembly order. -/

theorem combinedStoryBuffers_filterMap (o : Oracles) (total : Nat) :
    ∀ (stories : List StoryInfo) (index : Nat),
      (∀ s ∈ stories, ∃ t, s.summary = some t ∧ t ≠ []) →
      combinedStoryBuffers o total index stories
        = (narrationPlanItems total index stories).filterMap
            (generateSingleAudioBuffer o) := by
  intro stories
  induction stories with
  | nil => intro index h; simp [combinedStoryBuffers, narrationPlanItems]
  | cons story rest ih =>
    intro index h
    obtain ⟨t, hsum, hne⟩ := h story (List.mem_cons_self story rest)
    have htail := ih (index + 1) (fun s hs => h s (List.mem_cons_of_mem _ hs))
    simp only [combinedStoryBuffers, narrationPlanItems, narrationPlanItem, hsum,
      Option.getD_some, List.filterMap_append, filterMap_cons_buf]
    rw [if_pos hne, htail]
    by_cases hp : index + 1 < total
    · rw [if_pos (show index < total - 1 by omega), if_pos hp, filterMap_singleton_buf]
    · rw [if_neg (show ¬ index < total - 1 by omega), if_neg hp, List.filterMap_nil]

/-- C2: for items that all carry (truthy) summaries, the combined track's
buffer list is exactly the successful syntheses of the spec's narration
plan — intro, then per item in list order its title line and its summary
chunks in chunk order, a transition after every item but the last, then the
outro — and the uploaded track is the concatenation of those buffers in
that order. -/
theorem combined_track_order (o : Oracles) (stories : List StoryInfo)
    (h : ∀ s ∈ stories, ∃ t, s.summary = some t ∧ t ≠ []) :
    combinedAudioBuffers o stories
        = (narrationPlan stories).filterMap (generateSingleAudioBuffer o)
      ∧ ∀ track url, generateCombinedAudio o stories = some (track, url) →
          track = ((narrationPlan stories).filterMap
            (generateSingleAudioBuffer o)).flatten := by
  have h1 : combinedAudioBuffers o stories
      = (narrationPlan stories).filterMap (generateSingleAudioBuffer o) := by
    unfold combinedAudioBuffers narrationPlan
    rw [combinedStoryBuffers_filterMap o stories.length stories 0 h]
    rw [filterMap_cons_buf, List.filterMap_append, filterMap_singleton_buf]
    simp [List.append_assoc]
  refine ⟨h1, ?_⟩
  intro track url htrack
  unfold generateCombinedAudio at htrack
  dsimp only at htrack
  rw [h1] at htrack
  split at htrack
  · exact absurd htrack (by simp)
  · split at htrack
    · exact absurd htrack (by simp)
    · split at htrack
      · injection htrack with h2
        exact (congrArg Prod.fst h2).symm
      · exact absurd htrack (by simp)

/-- C2 (witness): the order theorem applied to two concrete summarized
items under the baseline oracle. -/
theorem combined_track_order_witness :
    combinedAudioBuffers oracleBase [storyA, storyB]
      = (narrationPlan [storyA, storyB]).filterMap
          (generateSingleAudioBuffer oracleBase) :=
  (combined_track_order oracleBase [storyA, storyB] (by
    intro s hs
    fin_cases hs
    · exact ⟨_, rfl, by decide⟩
    · exact ⟨_, rfl, by decide⟩)).1

/-! Claim C3: top-level source-list failures. -/

/-- C3 (counterexample): a failing Hacker News top-stories request makes
the fetch return an error — not an empty list — and the whole run falls to
the top-level catch and yields the structured error result instead of a
completed one. -/
theorem hn_top_failure_aborts_run :
    getTopHackerNewsStories oracleHnFail 5 = .error ()
      ∧ (handler oracleHnFail ts0 emptyStore).1 = HandlerResult.failure :=
  ⟨rfl, rfl⟩

/-- C3 (amended): a GitHub trending top-level failure yields an empty list
for that source and the run continues to a completed result; a Hacker News
top-stories failure instead propagates out of the fetch (line 305 rethrows)
and the handler returns the top-level error result without fetching the
other source. -/
theorem source_failure_policy (o : Oracles) (ct : JStr) (store : Store) :
    (o.ghSearch = .error () → getTopGitHubTrending o 5 = [])
      ∧ (o.hnTopStories = .error () →
          (handler o ct store).1 = HandlerResult.failure)
      ∧ (∀ ids, o.hnTopStories = .ok ids →
          ∃ d, (handler o ct store).1 = HandlerResult.success d) := by
  refine ⟨?_, ?_, ?_⟩
  · intro hg
    unfold getTopGitHubTrending
    rw [hg]
  · intro hh
    unfold handler getTopHackerNewsStories
    rw [hh]
  · intro ids hh
    unfold handler getTopHackerNewsStories
    rw [hh]
    exact ⟨_, rfl⟩

/-- C3 (witness): GitHub search failing with Hacker News healthy — the
GitHub fetch is empty and the run still completes. -/
theorem source_failure_policy_witness :
    getTopGitHubTrending oracleGhFail 5 = []
      ∧ ∃ d, (handler oracleGhFail ts0 emptyStore).1 = HandlerResult.success d :=
  ⟨(source_failure_policy oracleGhFail ts0 emptyStore).1 rfl,
    (source_failure_policy oracleGhFail ts0 emptyStore).2.2 [1, 2] rfl⟩

/-! Claim C7: the Hacker News fetcher and its limit. -/

theorem hnFetchStep_length_le (o : Oracles) (stories : List HackerNewsItem)
    (storyId : Nat) :
    (hnFetchStep o stories storyId).length ≤ stories.length + 1 := by
  unfold hnFetchStep
  split
  · omega
  · omega
  · split
    · simp [List.length_append]
    · omega

theorem foldl_hnFetchStep_length_le (o : Oracles) :
    ∀ (ids : List Nat) (init : List HackerNewsItem),
      (ids.foldl (hnFetchStep o) init).length ≤ init.length + ids.length := by
  intro ids
  induction ids with
  | nil => intro init; simp
  | cons i rest ih =>
    intro init
    rw [List.foldl_cons, List.length_cons]
    have h1 := ih (hnFetchStep o init i)
    have h2 := hnFetchStep_length_le o init i
    omega

theorem hnFetchStep_length_eq (o : Oracles) (stories : List HackerNewsItem)
    (storyId : Nat) (h : hnResolvesQualifying o storyId) :
    (hnFetchStep o stories storyId).length = stories.length + 1 := by
  obtain ⟨st, hok, hq⟩ := h
  unfold hnFetchStep
  rw [hok]
  dsimp only
  rw [if_pos hq]
  simp [List.length_append]

theorem foldl_hnFetchStep_length_eq (o : Oracles) :
    ∀ (ids : List Nat), (∀ i ∈ ids, hnResolvesQualifying o i) →
      ∀ init, (ids.foldl (hnFetchStep o) init).length
        = init.length + ids.length := by
  intro ids
  induction ids with
  | nil => intro _ init; simp
  | cons i rest ih =>
    intro hall init
    rw [List.foldl_cons, List.length_cons]
    rw [ih (fun x hx => hall x (List.mem_cons_of_mem _ hx)) _]
    rw [hnFetchStep_length_eq o init i (hall i (List.mem_cons_self i rest))]
    omega

/-- C7 (amended): the fetcher inspects only the FIRST `limit` ids of the
ranked list (`slice(0, limit)` happens before any filtering): it returns at
most `limit` items, and exactly `limit` precisely when the list is long
enough and every one of those first ids resolves to a qualifying story;
qualifying entries beyond the first `limit` ids are never considered. -/
theorem hn_fetcher_limit (o : Oracles) (limit : Nat) (ids : List Nat)
    (h : o.hnTopStories = .ok ids) :
    ∃ stories, getTopHackerNewsStories o limit = .ok stories
      ∧ stories.length ≤ limit
      ∧ (limit ≤ ids.length →
          (∀ i ∈ ids.take limit, hnResolvesQualifying o i) →
          stories.length = limit) := by
  refine ⟨(ids.take limit).foldl (hnFetchStep o) [], ?_, ?_, ?_⟩
  · unfold getTopHackerNewsStories
    rw [h]
  · have h1 := foldl_hnFetchStep_length_le o (ids.take limit) []
    rw [List.length_take] at h1
    simp only [List.length_nil] at h1
    omega
  · intro hlen hall
    rw [foldl_hnFetchStep_length_eq o (ids.take limit) hall []]
    rw [List.length_take]
    simp only [List.length_nil]
    omega

/-- C7 (counterexample): ranked list `[1, 2]` where id 1 is a job and id 2
a qualifying story: with limit 1 the fetcher slices to `[1]` before
filtering and returns zero items even though the ranked list contains a
qualifying entry. -/
theorem hn_fetcher_slices_before_filtering :
    getTopHackerNewsStories oracleMixed 1 = .ok []
      ∧ oracleMixed.hnTopStories = .ok [1, 2]
      ∧ oracleMixed.hnItem 2 = .ok (some (hnStoryItem 2))
      ∧ isQualifyingStory (hnStoryItem 2) = true := by
  refine ⟨rfl, rfl, rfl, by decide⟩

/-- C7 (witness): with the first two ids both qualifying, limit 2 returns
exactly 2 items. -/
theorem hn_fetcher_limit_witness :
    ∃ stories, getTopHackerNewsStories oracleBase 2 = .ok stories
      ∧ stories.length = 2 := by
  obtain ⟨stories, h1, _, h3⟩ := hn_fetcher_limit oracleBase 2 [1, 2] rfl
  refine ⟨stories, h1, h3 (by decide) ?_⟩
  intro i hi
  fin_cases hi
  · exact ⟨hnStoryItem 1, rfl, by decide⟩
  · exact ⟨hnStoryItem 2, rfl, by decide⟩

/-! Claim C6: summarizer failure handling. -/

/-- C6 (counterexample): when the single summarization attempt fails, the
item's summary field is PRESENT and set to the sentinel string
`Summary unavailable` (line 359 assigns it unconditionally) — not absent —
while the audio field stays absent. -/
theorem summarizer_failure_sets_sentinel :
    (processStoryWithSummary oracleBedrockFail (hnStoryItem 1)).summary
        = some sentinelNoSummary
      ∧ (processStoryWithSummary oracleBedrockFail (hnStoryItem 1)).audioUrl
        = none := by
  decide

/-- C6 (amended): if the summarizer fails on every call, the processed item
survives with its minimal fields (title, score, author) intact, no audio,
and its summary field either absent (when no content was fetched) or set to
the sentinel string `Summary unavailable` — present, not absent; nothing
aborts, so the surrounding run continues. -/
theorem summarizer_failure_degrades (o : Oracles) (story : HackerNewsItem)
    (hb : ∀ p, o.bedrock p = .error ()) :
    ((processStoryWithSummary o story).summary = none
        ∨ (processStoryWithSummary o story).summary = some sentinelNoSummary)
      ∧ (processStoryWithSummary o story).audioUrl = none
      ∧ (processStoryWithSummary o story).title = story.title
      ∧ (processStoryWithSummary o story).score = story.score
      ∧ (processStoryWithSummary o story).author = story.byUser := by
  have hsum : ∀ content, summarizeWithBedrock o content = sentinelNoSummary := by
    intro content
    unfold summarizeWithBedrock
    rw [hb]
  unfold processStoryWithSummary
  dsimp only
  split
  · simp
  · split
    · split
      · rw [hsum]
        rw [if_neg (by simp)]
        simp
      · simp
    · simp

/-- C6 (witness): the degradation theorem at the failing-summarizer oracle
and a concrete story. -/
theorem summarizer_failure_degrades_witness :
    ((processStoryWithSummary oracleBedrockFail (hnStoryItem 2)).summary = none
        ∨ (processStoryWithSummary oracleBedrockFail (hnStoryItem 2)).summary
            = some sentinelNoSummary)
      ∧ (processStoryWithSummary oracleBedrockFail (hnStoryItem 2)).audioUrl = none
      ∧ (processStoryWithSummary oracleBedrockFail (hnStoryItem 2)).title
          = (hnStoryItem 2).title
      ∧ (processStoryWithSummary oracleBedrockFail (hnStoryItem 2)).score
          = (hnStoryItem 2).score
      ∧ (processStoryWithSummary oracleBedrockFail (hnStoryItem 2)).author
          = (hnStoryItem 2).byUser :=
  summarizer_failure_degrades oracleBedrockFail (hnStoryItem 2) (fun _ => rfl)

/-! Claims C4 and C5: the digest record and `emailSent`. -/

theorem saveDailyRecommendations_digest (o : Oracles) (stories : List StoryInfo)
    (ts : JStr) (curl : Option JStr) (store : Store) (hdy : o.dynamoOk = true) :
    ∃ st, saveDailyRecommendations o stories ts curl store = .ok st
      ∧ st (digestId ts) = some (digestRecord ts stories.length curl
          (o.nowMs / 1000 + 365 * 24 * 60 * 60)) := by
  unfold saveDailyRecommendations
  rw [if_pos hdy]
  dsimp only
  refine ⟨_, rfl, ?_⟩
  unfold putItem
  rw [if_pos (show digestId ts
    = (digestRecord ts stories.length curl
        (o.nowMs / 1000 + 365 * 24 * 60 * 60)).id from rfl)]

/-- C4: starting from a store without the digest record, the record the
save creates carries `emailSent = false`; the final store can hold
`emailSent = true` only if the SES send succeeded; and if the send failed,
any stored digest record still has `emailSent = false`. -/
theorem emailSent_lifecycle (o : Oracles) (stories : List StoryInfo) (ts : JStr)
    (curl : Option JStr) (store : Store) (h0 : store (digestId ts) = none) :
    (∀ rec, (runPersistAndEmail o stories ts curl store).storeAfterSave (digestId ts)
          = some rec → rec.emailSent = some false)
      ∧ (o.dynamoOk = true →
          (runPersistAndEmail o stories ts curl store).storeAfterSave (digestId ts)
            = some (digestRecord ts stories.length curl
                (o.nowMs / 1000 + 365 * 24 * 60 * 60)))
      ∧ (∀ rec, (runPersistAndEmail o stories ts curl store).finalStore (digestId ts)
          = some rec → rec.emailSent = some true → o.sesOk = true)
      ∧ (o.sesOk = false → ∀ rec,
          (runPersistAndEmail o stories ts curl store).finalStore (digestId ts)
            = some rec → rec.emailSent = some false) := by
  cases hdy : o.dynamoOk with
  | true =>
    obtain ⟨st, hok, hdig⟩ := saveDailyRecommendations_digest o stories ts curl store hdy
    cases hses : o.sesOk with
    | true =>
      have hrun : runPersistAndEmail o stories ts curl store
          = { storeAfterSave := st,
              finalStore := updateEmailSentStatus o ts st,
              emailSent := true } := by
        unfold runPersistAndEmail sendEmailSummary
        dsimp only
        rw [hok]
        dsimp only
        rw [if_pos hses]
      have hupd : updateEmailSentStatus o ts st (digestId ts)
          = some (emailSentUpdateItem ts) := by
        unfold updateEmailSentStatus
        rw [if_pos hdy, hdig]
        unfold putItem
        dsimp only
        rw [if_pos (show digestId ts = (emailSentUpdateItem ts).id from rfl)]
      rw [hrun]
      dsimp only
      refine ⟨?_, fun _ => hdig, ?_, ?_⟩
      · intro rec hrec
        rw [hdig] at hrec
        obtain rfl := Option.some.inj hrec
        rfl
      · intro rec _ _
        rfl
      · intro hfalse
        exact absurd hfalse (by decide)
    | false =>
      have hrun : runPersistAndEmail o stories ts curl store
          = { storeAfterSave := st, finalStore := st, emailSent := false } := by
        unfold runPersistAndEmail sendEmailSummary
        dsimp only
        rw [hok]
        dsimp only
        rw [if_neg (by simp [hses])]
      rw [hrun]
      dsimp only
      refine ⟨?_, fun _ => hdig, ?_, ?_⟩
      · intro rec hrec
        rw [hdig] at hrec
        obtain rfl := Option.some.inj hrec
        rfl
      · intro rec hrec htrue
        rw [hdig] at hrec
        obtain rfl := Option.some.inj hrec
        simp [digestRecord] at htrue
      · intro _ rec hrec
        rw [hdig] at hrec
        obtain rfl := Option.some.inj hrec
        rfl
  | false =>
    have hsaveerr : saveDailyRecommendations o stories ts curl store = .error () := by
      unfold saveDailyRecommendations
      rw [if_neg (by simp [hdy])]
    have hupd : updateEmailSentStatus o ts store (digestId ts) = none := by
      unfold updateEmailSentStatus
      rw [if_neg (by simp [hdy])]
      exact h0
    cases hses : o.sesOk with
    | true =>
      have hrun : runPersistAndEmail o stories ts curl store
          = { storeAfterSave := store,
              finalStore := updateEmailSentStatus o ts store,
              emailSent := true } := by
        unfold runPersistAndEmail sendEmailSummary
        dsimp only
        rw [hsaveerr]
        dsimp only
        rw [if_pos hses]
      rw [hrun]
      dsimp only
      refine ⟨?_, ?_, ?_, ?_⟩
      · intro rec hrec
        rw [h0] at hrec
        exact absurd hrec (by simp)
      · intro hdyt
        exact absurd hdyt (by decide)
      · intro rec hrec
        rw [hupd] at hrec
        exact absurd hrec (by simp)
      · intro _ rec hrec
        rw [hupd] at hrec
        exact absurd hrec (by simp)
    | false =>
      have hrun : runPersistAndEmail o stories ts curl store
          = { storeAfterSave := store, finalStore := store, emailSent := false } := by
        unfold runPersistAndEmail sendEmailSummary
        dsimp only
        rw [hsaveerr]
        dsimp only
        rw [if_neg (by simp [hses])]
      rw [hrun]
      dsimp only
      refine ⟨?_, ?_, ?_, ?_⟩
      · intro rec hrec
        rw [h0] at hrec
        exact absurd hrec (by simp)
      · intro hdyt
        exact absurd hdyt (by decide)
      · intro rec hrec
        rw [h0] at hrec
        exact absurd hrec (by simp)
      · intro _ rec hrec
        rw [h0] at hrec
        exact absurd hrec (by simp)

/-- C4 (witness): the lifecycle theorem at the baseline oracle (all
services healthy), no stories, an empty store: the saved digest record is
exactly the `emailSent = false` record. -/
theorem emailSent_lifecycle_witness :
    (runPersistAndEmail oracleBase [] ts0 none emptyStore).storeAfterSave
        (digestId ts0)
      = some (digestRecord ts0 0 none
          (oracleBase.nowMs / 1000 + 365 * 24 * 60 * 60)) :=
  (emailSent_lifecycle oracleBase [] ts0 none emptyStore rfl).2.1 rfl

/-- C5 (code_bug): the post-mail update is a DynamoDB `PutItem` whose item
carries only `id`, `emailSent` and `lastUpdated`; a put REPLACES the stored
item, so after the update the digest record has lost every other attribute
(`date`, `totalStories`, `ttl`, ...) instead of keeping them unchanged. -/
theorem updateEmailSentStatus_replaces_item :
    storeWithDigest (digestId ts0) = some digestFull
      ∧ digestFull.totalStories = some 3
      ∧ digestFull.ttl = some 1735689600
      ∧ digestFull.date = some ("2024-01-01".data)
      ∧ updateEmailSentStatus oracleBase ts0 storeWithDigest (digestId ts0)
          = some (emailSentUpdateItem ts0)
      ∧ (emailSentUpdateItem ts0).totalStories = none
      ∧ (emailSentUpdateItem ts0).ttl = none
      ∧ (emailSentUpdateItem ts0).date = none := by
  decide

end NewsAgent
